import Mathlib

/-!
Verification of the stock-reservation core and the request rate limiter of
the Final2025Python repository.

The inventory ledger, the order-line lifecycle manager (services/) and the
rate-limit middleware (middleware/) are not present under src/; they are
modelled from the specification, which states that all operations on one
product serialize through an exclusive per-record lock, so concurrent
executions are embedded as sequential runs over an explicit database state.
Controllers (src/controllers) and the base model (src/models/base_model.py)
are embedded from the source.
-/

/-- A product stock record: unit price and available quantity
(src/models: price Float, stock Integer; price is only copied and compared
for equality, embedded as Rat; stock embedded as Int so that nonnegativity
is a real statement). -/
structure Product where
  price : Rat
  stock : Int
deriving Repr, DecidableEq

/-- An order line row: quantity, unit price, owning order, referenced
product (models/order_detail.py, columns per the spec data model). -/
structure OrderLine where
  quantity : Int
  price : Rat
  orderId : Nat
  productId : Nat
deriving Repr, DecidableEq

/-- Inbound order-detail payload (schemas/order_detail_schema.py):
quantity, optional price, order id, product id. -/
structure OrderDetailSchema where
  quantity : Int
  price : Option Rat
  orderId : Nat
  productId : Nat
deriving Repr, DecidableEq

/-- Modelled from the spec: an Order Line quantity is a positive integer,
enforced at schema validation before any service code runs. -/
def OrderDetailSchema.valid (s : OrderDetailSchema) : Bool :=
  0 < s.quantity

/-- The relational state the lifecycle manager operates on: product rows,
existing order ids, order-line rows and the autoincrement counter for line
primary keys. -/
structure DB where
  products : Nat → Option Product
  orders : Nat → Bool
  lines : Nat → Option OrderLine
  nextLineId : Nat

/-- Overwrite the available quantity of one product row. -/
def DB.setStock (db : DB) (pid : Nat) (v : Int) : DB :=
  { db with
    products := fun k =>
      if k = pid then (db.products pid).map (fun p => { p with stock := v })
      else db.products k }

/-- Insert a line row under a fresh primary key and bump the autoincrement
counter. -/
def DB.insertLine (db : DB) (lid : Nat) (line : OrderLine) : DB :=
  { db with
    lines := fun k => if k = lid then some line else db.lines k,
    nextLineId := lid + 1 }

/-- Overwrite one line row. -/
def DB.setLine (db : DB) (lid : Nat) (line : OrderLine) : DB :=
  { db with lines := fun k => if k = lid then some line else db.lines k }

/-- Remove one line row. -/
def DB.removeLine (db : DB) (lid : Nat) : DB :=
  { db with lines := fun k => if k = lid then none else db.lines k }

/-- Error taxonomy of the order-line endpoints: missing referenced entity,
price mismatch, insufficient stock (raised as ValueError by the service per
src/tests/test_services.py), and duplicate-key conflicts from persistence. -/
inductive SvcError where
  | notFound
  | priceMismatch
  | insufficientStock
  | duplicateKey
deriving Repr, DecidableEq

/-- Modelled from the spec: Ledger.reserve (services, not under src) locks
the product row, validates the expected price, validates available
quantity, then decrements it; the lock makes the whole unit atomic, so it
is one state transition here. -/
def Ledger.reserve (db : DB) (pid : Nat) (q : Int) (expected : Rat) :
    Except SvcError DB :=
  match db.products pid with
  | none => .error .notFound
  | some prod =>
      if expected ≠ prod.price then .error .priceMismatch
      else if prod.stock < q then .error .insufficientStock
      else .ok (db.setStock pid (prod.stock - q))

/-- Modelled from the spec: Ledger.release (services, not under src)
increments the available quantity under the same lock, with no upper-bound
check. -/
def Ledger.release (db : DB) (pid : Nat) (q : Int) : Except SvcError DB :=
  match db.products pid with
  | none => .error .notFound
  | some prod => .ok (db.setStock pid (prod.stock + q))

/-- Modelled from the spec: Ledger.adjust (services, not under src); a
negative delta behaves as a bounded reserve of its magnitude, a positive
delta as a release. -/
def Ledger.adjust (db : DB) (pid : Nat) (delta : Int) : Except SvcError DB :=
  match db.products pid with
  | none => .error .notFound
  | some prod =>
      if delta < 0 ∧ prod.stock < -delta then .error .insufficientStock
      else .ok (db.setStock pid (prod.stock + delta))

/-- Modelled from the spec: OrderDetailService.save (services, not under
src) resolves the order and the product, fills the price from the product
when omitted, calls Ledger.reserve with the resulting expected price, and
persists the line only after the reservation succeeds. -/
def OrderDetailService.save (db : DB) (s : OrderDetailSchema) :
    Except SvcError (Nat × OrderLine × DB) :=
  if db.orders s.orderId = false then .error .notFound
  else
    match db.products s.productId with
    | none => .error .notFound
    | some prod =>
        let price := s.price.getD prod.price
        match Ledger.reserve db s.productId s.quantity price with
        | .error e => .error e
        | .ok db1 =>
            let line : OrderLine :=
              { quantity := s.quantity, price := price,
                orderId := s.orderId, productId := s.productId }
            .ok (db.nextLineId, line, db1.insertLine db.nextLineId line)

/-- Modelled from the spec: OrderDetailService.update (services, not under
src) loads the line, computes delta = new quantity - old quantity, calls
Ledger.adjust with -delta, and only on success persists the new
quantity/price; a rejected adjustment commits nothing. -/
def OrderDetailService.update (db : DB) (lid : Nat) (s : OrderDetailSchema) :
    Except SvcError (OrderLine × DB) :=
  match db.lines lid with
  | none => .error .notFound
  | some line =>
      let delta := s.quantity - line.quantity
      match Ledger.adjust db line.productId (-delta) with
      | .error e => .error e
      | .ok db1 =>
          let line' : OrderLine :=
            { line with quantity := s.quantity, price := s.price.getD line.price }
          .ok (line', db1.setLine lid line')

/-- Modelled from the spec: OrderDetailService.delete (services, not under
src) loads the line, releases its full quantity back to stock, and removes
the row; release and removal commit together. -/
def OrderDetailService.delete (db : DB) (lid : Nat) : Except SvcError DB :=
  match db.lines lid with
  | none => .error .notFound
  | some line =>
      match Ledger.release db line.productId line.quantity with
      | .error e => .error e
      | .ok db1 => .ok (db1.removeLine lid)

/-- One mutating request against the order-line lifecycle. -/
inductive LifecycleOp where
  | create (s : OrderDetailSchema)
  | updateLine (lid : Nat) (s : OrderDetailSchema)
  | deleteLine (lid : Nat)

/-- Effect of one request on the committed state: requests rejected at
schema validation or by the service commit nothing. -/
def applyOp (db : DB) : LifecycleOp → DB
  | .create s =>
      if s.valid then
        match OrderDetailService.save db s with
        | .ok r => r.2.2
        | .error _ => db
      else db
  | .updateLine lid s =>
      if s.valid then
        match OrderDetailService.update db lid s with
        | .ok r => r.2
        | .error _ => db
      else db
  | .deleteLine lid =>
      match OrderDetailService.delete db lid with
      | .ok db1 => db1
      | .error _ => db

/-- Committed state after a sequence of mutating requests (the spec's lock
discipline serializes them). -/
def runOps (db : DB) (ops : List LifecycleOp) : DB :=
  ops.foldl applyOp db

/-- Every product row holds a nonnegative available quantity. -/
def StockNonneg (db : DB) : Prop :=
  ∀ pid p, db.products pid = some p → 0 ≤ p.stock

/-- Every line row holds a positive quantity. -/
def LinesPos (db : DB) : Prop :=
  ∀ lid l, db.lines lid = some l → 0 < l.quantity

/-- The data-model invariant of section 3 of the spec. -/
def DBInv (db : DB) : Prop :=
  StockNonneg db ∧ LinesPos db

theorem DB.setStock_products_self (db : DB) (pid : Nat) (v : Int) :
    (db.setStock pid v).products pid
      = (db.products pid).map (fun p => { p with stock := v }) := by
  simp [DB.setStock]

theorem DB.setStock_products_other (db : DB) (pid k : Nat) (v : Int) (h : k ≠ pid) :
    (db.setStock pid v).products k = db.products k := by
  simp [DB.setStock, h]

theorem DB.setStock_orders (db : DB) (pid : Nat) (v : Int) :
    (db.setStock pid v).orders = db.orders := rfl

theorem DB.setStock_lines (db : DB) (pid : Nat) (v : Int) :
    (db.setStock pid v).lines = db.lines := rfl

theorem DB.insertLine_products (db : DB) (lid : Nat) (l : OrderLine) :
    (db.insertLine lid l).products = db.products := rfl

theorem DB.insertLine_orders (db : DB) (lid : Nat) (l : OrderLine) :
    (db.insertLine lid l).orders = db.orders := rfl

theorem DB.setLine_products (db : DB) (lid : Nat) (l : OrderLine) :
    (db.setLine lid l).products = db.products := rfl

theorem DB.removeLine_products (db : DB) (lid : Nat) :
    (db.removeLine lid).products = db.products := rfl

theorem save_ok_intro (db : DB) (s : OrderDetailSchema) (prod : Product)
    (ho : db.orders s.orderId = true)
    (hp : db.products s.productId = some prod)
    (hprice : s.price.getD prod.price = prod.price)
    (hstock : s.quantity ≤ prod.stock) :
    OrderDetailService.save db s =
      .ok (db.nextLineId,
        { quantity := s.quantity, price := s.price.getD prod.price,
          orderId := s.orderId, productId := s.productId },
        (db.setStock s.productId (prod.stock - s.quantity)).insertLine db.nextLineId
          { quantity := s.quantity, price := s.price.getD prod.price,
            orderId := s.orderId, productId := s.productId }) := by
  unfold OrderDetailService.save Ledger.reserve
  rw [ho, hp]
  simp [hprice, not_lt_of_ge hstock]

theorem save_ok_elim {db : DB} {s : OrderDetailSchema} {r : Nat × OrderLine × DB}
    (h : OrderDetailService.save db s = .ok r) :
    ∃ prod, db.products s.productId = some prod ∧ db.orders s.orderId = true ∧
      s.price.getD prod.price = prod.price ∧ s.quantity ≤ prod.stock ∧
      r = (db.nextLineId,
        { quantity := s.quantity, price := s.price.getD prod.price,
          orderId := s.orderId, productId := s.productId },
        (db.setStock s.productId (prod.stock - s.quantity)).insertLine db.nextLineId
          { quantity := s.quantity, price := s.price.getD prod.price,
            orderId := s.orderId, productId := s.productId }) := by
  cases ho : db.orders s.orderId with
  | false =>
      unfold OrderDetailService.save at h
      rw [ho] at h
      simp at h
  | true =>
      cases hp : db.products s.productId with
      | none =>
          unfold OrderDetailService.save at h
          rw [ho, hp] at h
          simp at h
      | some prod =>
          unfold OrderDetailService.save Ledger.reserve at h
          rw [ho, hp] at h
          simp only [Bool.true_eq_false, if_false] at h
          by_cases hprice : s.price.getD prod.price = prod.price
          · by_cases hstock : prod.stock < s.quantity
            · simp [hprice, hstock] at h
            · simp only [hprice, ne_eq, not_true_eq_false, if_false,
                hstock, Except.ok.injEq] at h
              refine ⟨prod, rfl, rfl, hprice, le_of_not_lt hstock, ?_⟩
              rw [hprice]
              exact h.symm
          · simp [hprice] at h

theorem save_insufficient_intro (db : DB) (s : OrderDetailSchema) (prod : Product)
    (ho : db.orders s.orderId = true)
    (hp : db.products s.productId = some prod)
    (hprice : s.price.getD prod.price = prod.price)
    (hstock : prod.stock < s.quantity) :
    OrderDetailService.save db s = .error .insufficientStock := by
  unfold OrderDetailService.save Ledger.reserve
  rw [ho, hp]
  simp [hprice, hstock]

theorem save_priceMismatch_intro (db : DB) (s : OrderDetailSchema) (prod : Product)
    (P : Rat)
    (ho : db.orders s.orderId = true)
    (hp : db.products s.productId = some prod)
    (hin : s.price = some P)
    (hne : P ≠ prod.price) :
    OrderDetailService.save db s = .error .priceMismatch := by
  unfold OrderDetailService.save Ledger.reserve
  rw [ho, hp]
  simp [hin, hne]


theorem update_ok_intro (db : DB) (lid : Nat) (s : OrderDetailSchema)
    (line : OrderLine) (prod : Product)
    (hl : db.lines lid = some line)
    (hp : db.products line.productId = some prod)
    (hc : ¬(0 < s.quantity - line.quantity ∧ prod.stock < s.quantity - line.quantity)) :
    OrderDetailService.update db lid s =
      .ok ({ line with quantity := s.quantity, price := s.price.getD line.price },
        (db.setStock line.productId (prod.stock + -(s.quantity - line.quantity))).setLine
          lid { line with quantity := s.quantity, price := s.price.getD line.price }) := by
  have hc' : ¬(-(s.quantity - line.quantity) < 0 ∧
      prod.stock < - -(s.quantity - line.quantity)) := by
    intro hx
    exact hc ⟨by omega, by omega⟩
  unfold OrderDetailService.update Ledger.adjust
  simp only [hl, hp, hc', if_false]

theorem update_insufficient_intro (db : DB) (lid : Nat) (s : OrderDetailSchema)
    (line : OrderLine) (prod : Product)
    (hl : db.lines lid = some line)
    (hp : db.products line.productId = some prod)
    (hpos : 0 < s.quantity - line.quantity)
    (hlt : prod.stock < s.quantity - line.quantity) :
    OrderDetailService.update db lid s = .error .insufficientStock := by
  have hc : -(s.quantity - line.quantity) < 0 ∧
      prod.stock < - -(s.quantity - line.quantity) := ⟨by omega, by omega⟩
  unfold OrderDetailService.update Ledger.adjust
  simp only [hl, hp, hc.1, hc.2, and_self, if_true]

theorem update_ok_elim {db : DB} {lid : Nat} {s : OrderDetailSchema}
    {r : OrderLine × DB}
    (h : OrderDetailService.update db lid s = .ok r) :
    ∃ line prod, db.lines lid = some line ∧
      db.products line.productId = some prod ∧
      ¬(0 < s.quantity - line.quantity ∧ prod.stock < s.quantity - line.quantity) ∧
      r = ({ line with quantity := s.quantity, price := s.price.getD line.price },
        (db.setStock line.productId (prod.stock + -(s.quantity - line.quantity))).setLine
          lid { line with quantity := s.quantity, price := s.price.getD line.price }) := by
  cases hl : db.lines lid with
  | none =>
      unfold OrderDetailService.update at h
      rw [hl] at h
      simp at h
  | some line =>
      cases hp : db.products line.productId with
      | none =>
          unfold OrderDetailService.update Ledger.adjust at h
          simp only [hl, hp] at h
          exact Except.noConfusion h
      | some prod =>
          unfold OrderDetailService.update Ledger.adjust at h
          simp only [hl, hp] at h
          by_cases hc : -(s.quantity - line.quantity) < 0 ∧
              prod.stock < - -(s.quantity - line.quantity)
          · rw [if_pos hc] at h
            exact Except.noConfusion h
          · rw [if_neg hc] at h
            simp only [Except.ok.injEq] at h
            exact ⟨line, prod, rfl, hp, fun hx => hc ⟨by omega, by omega⟩, h.symm⟩

theorem delete_ok_intro (db : DB) (lid : Nat) (line : OrderLine) (prod : Product)
    (hl : db.lines lid = some line)
    (hp : db.products line.productId = some prod) :
    OrderDetailService.delete db lid =
      .ok ((db.setStock line.productId (prod.stock + line.quantity)).removeLine lid) := by
  unfold OrderDetailService.delete Ledger.release
  simp only [hl, hp]

theorem delete_ok_elim {db : DB} {lid : Nat} {db1 : DB}
    (h : OrderDetailService.delete db lid = .ok db1) :
    ∃ line prod, db.lines lid = some line ∧
      db.products line.productId = some prod ∧
      db1 = (db.setStock line.productId (prod.stock + line.quantity)).removeLine lid := by
  cases hl : db.lines lid with
  | none =>
      unfold OrderDetailService.delete at h
      rw [hl] at h
      simp at h
  | some line =>
      cases hp : db.products line.productId with
      | none =>
          unfold OrderDetailService.delete Ledger.release at h
          simp only [hl, hp] at h
          exact Except.noConfusion h
      | some prod =>
          unfold OrderDetailService.delete Ledger.release at h
          simp only [hl, hp, Except.ok.injEq] at h
          exact ⟨line, prod, rfl, hp, h.symm⟩

theorem delete_error_elim {db : DB} {lid : Nat} {e : SvcError}
    (h : OrderDetailService.delete db lid = .error e) : e = .notFound := by
  cases hl : db.lines lid with
  | none =>
      unfold OrderDetailService.delete at h
      rw [hl] at h
      simp only [Except.error.injEq] at h
      exact h.symm
  | some line =>
      cases hp : db.products line.productId with
      | none =>
          unfold OrderDetailService.delete Ledger.release at h
          simp only [hl, hp, Except.error.injEq] at h
          exact h.symm
      | some prod =>
          unfold OrderDetailService.delete Ledger.release at h
          simp only [hl, hp] at h
          exact Except.noConfusion h

theorem valid_pos {s : OrderDetailSchema} (h : s.valid = true) : 0 < s.quantity := by
  simpa [OrderDetailSchema.valid] using h

theorem stockNonneg_setStock {db : DB} {pid : Nat} {v : Int}
    (h : StockNonneg db) (hv : 0 ≤ v) : StockNonneg (db.setStock pid v) := by
  intro k p hk
  by_cases hkp : k = pid
  · subst hkp
    rw [DB.setStock_products_self] at hk
    cases hdb : db.products k with
    | none => rw [hdb] at hk; simp at hk
    | some p0 =>
        rw [hdb] at hk
        simp only [Option.map_some', Option.some.injEq] at hk
        rw [← hk]
        exact hv
  · rw [DB.setStock_products_other db pid k v hkp] at hk
    exact h k p hk

theorem stockNonneg_insertLine {db : DB} {lid : Nat} {l : OrderLine}
    (h : StockNonneg db) : StockNonneg (db.insertLine lid l) := h

theorem stockNonneg_setLine {db : DB} {lid : Nat} {l : OrderLine}
    (h : StockNonneg db) : StockNonneg (db.setLine lid l) := h

theorem stockNonneg_removeLine {db : DB} {lid : Nat}
    (h : StockNonneg db) : StockNonneg (db.removeLine lid) := h

theorem linesPos_setStock {db : DB} {pid : Nat} {v : Int}
    (h : LinesPos db) : LinesPos (db.setStock pid v) := h

theorem linesPos_insertLine {db : DB} {lid : Nat} {l : OrderLine}
    (h : LinesPos db) (hq : 0 < l.quantity) : LinesPos (db.insertLine lid l) := by
  intro k x hk
  simp only [DB.insertLine] at hk
  by_cases hkl : k = lid
  · rw [if_pos hkl] at hk
    cases hk
    exact hq
  · rw [if_neg hkl] at hk
    exact h k x hk

theorem linesPos_setLine {db : DB} {lid : Nat} {l : OrderLine}
    (h : LinesPos db) (hq : 0 < l.quantity) : LinesPos (db.setLine lid l) := by
  intro k x hk
  simp only [DB.setLine] at hk
  by_cases hkl : k = lid
  · rw [if_pos hkl] at hk
    cases hk
    exact hq
  · rw [if_neg hkl] at hk
    exact h k x hk

theorem linesPos_removeLine {db : DB} {lid : Nat}
    (h : LinesPos db) : LinesPos (db.removeLine lid) := by
  intro k x hk
  simp only [DB.removeLine] at hk
  by_cases hkl : k = lid
  · rw [if_pos hkl] at hk
    exact Option.noConfusion hk
  · rw [if_neg hkl] at hk
    exact h k x hk

theorem applyOp_create (db : DB) (s : OrderDetailSchema) :
    applyOp db (.create s) =
      if s.valid then
        match OrderDetailService.save db s with
        | .ok r => r.2.2
        | .error _ => db
      else db := rfl

theorem applyOp_updateLine (db : DB) (lid : Nat) (s : OrderDetailSchema) :
    applyOp db (.updateLine lid s) =
      if s.valid then
        match OrderDetailService.update db lid s with
        | .ok r => r.2
        | .error _ => db
      else db := rfl

theorem applyOp_deleteLine (db : DB) (lid : Nat) :
    applyOp db (.deleteLine lid) =
      match OrderDetailService.delete db lid with
      | .ok db1 => db1
      | .error _ => db := rfl

theorem dbInv_applyOp {db : DB} (op : LifecycleOp) (h : DBInv db) :
    DBInv (applyOp db op) := by
  obtain ⟨hS, hL⟩ := h
  cases op with
  | create s =>
      rw [applyOp_create]
      by_cases hv : s.valid
      · rw [if_pos hv]
        cases hsave : OrderDetailService.save db s with
        | error e => exact ⟨hS, hL⟩
        | ok r =>
            obtain ⟨prod, hp, ho, hprice, hstock, hr⟩ := save_ok_elim hsave
            rw [hr]
            refine ⟨stockNonneg_insertLine (stockNonneg_setStock hS (by omega)), ?_⟩
            exact linesPos_insertLine (linesPos_setStock hL) (valid_pos hv)
      · rw [if_neg hv]
        exact ⟨hS, hL⟩
  | updateLine lid s =>
      rw [applyOp_updateLine]
      by_cases hv : s.valid
      · rw [if_pos hv]
        cases hup : OrderDetailService.update db lid s with
        | error e => exact ⟨hS, hL⟩
        | ok r =>
            obtain ⟨line, prod, hl, hp, hc, hr⟩ := update_ok_elim hup
            rw [hr]
            have hnn : (0 : Int) ≤ prod.stock := hS _ _ hp
            refine ⟨stockNonneg_setLine (stockNonneg_setStock hS (by omega)), ?_⟩
            exact linesPos_setLine (linesPos_setStock hL) (valid_pos hv)
      · rw [if_neg hv]
        exact ⟨hS, hL⟩
  | deleteLine lid =>
      rw [applyOp_deleteLine]
      cases hdel : OrderDetailService.delete db lid with
      | error e => exact ⟨hS, hL⟩
      | ok db1 =>
          obtain ⟨line, prod, hl, hp, hr⟩ := delete_ok_elim hdel
          rw [hr]
          have hnn : (0 : Int) ≤ prod.stock := hS _ _ hp
          have hq : 0 < line.quantity := hL _ _ hl
          refine ⟨stockNonneg_removeLine (stockNonneg_setStock hS (by omega)), ?_⟩
          exact linesPos_removeLine (linesPos_setStock hL)

theorem dbInv_runOps (ops : List LifecycleOp) (db : DB) (h : DBInv db) :
    DBInv (runOps db ops) := by
  induction ops generalizing db with
  | nil => exact h
  | cons op rest ih => exact ih (applyOp db op) (dbInv_applyOp op h)

theorem save_ok_orders {db : DB} {s : OrderDetailSchema} {r : Nat × OrderLine × DB}
    (h : OrderDetailService.save db s = .ok r) : r.2.2.orders = db.orders := by
  obtain ⟨prod, hp, ho, hprice, hstock, hr⟩ := save_ok_elim h
  rw [hr]
  rfl

theorem save_ok_products_self {db : DB} {s : OrderDetailSchema}
    {r : Nat × OrderLine × DB} {prod : Product}
    (h : OrderDetailService.save db s = .ok r)
    (hp : db.products s.productId = some prod) :
    r.2.2.products s.productId = some { prod with stock := prod.stock - s.quantity } := by
  obtain ⟨prod2, hp2, ho, hprice, hstock, hr⟩ := save_ok_elim h
  rw [hp] at hp2
  cases hp2
  rw [hr]
  show ((db.setStock s.productId _).insertLine _ _).products s.productId = _
  rw [DB.insertLine_products, DB.setStock_products_self, hp]
  rfl

theorem save_ok_products_other {db : DB} {s : OrderDetailSchema}
    {r : Nat × OrderLine × DB} {k : Nat}
    (h : OrderDetailService.save db s = .ok r) (hk : k ≠ s.productId) :
    r.2.2.products k = db.products k := by
  obtain ⟨prod, hp, ho, hprice, hstock, hr⟩ := save_ok_elim h
  rw [hr]
  show ((db.setStock s.productId _).insertLine _ _).products k = _
  rw [DB.insertLine_products, DB.setStock_products_other _ _ _ _ hk]

/-- A unit purchase request: quantity 1 at the expected price, against one
order and one product (the shape submitted by each worker of
src/tests/test_concurrency.py). -/
def unitReq (P : Rat) (oid pid : Nat) : OrderDetailSchema :=
  { quantity := 1, price := some P, orderId := oid, productId := pid }

/-- Serialized processing of a batch of create requests, counting how many
commit and how many are rejected with InsufficientStock; the spec's
per-product lock totally orders concurrent creates, so any interleaving is
one such list. -/
def runCreates (db : DB) : List OrderDetailSchema → DB × Nat × Nat
  | [] => (db, 0, 0)
  | s :: rest =>
      match OrderDetailService.save db s with
      | .ok r =>
          let t := runCreates r.2.2 rest
          (t.1, t.2.1 + 1, t.2.2)
      | .error .insufficientStock =>
          let t := runCreates db rest
          (t.1, t.2.1, t.2.2 + 1)
      | .error _ =>
          let t := runCreates db rest
          (t.1, t.2.1, t.2.2)

theorem runCreates_cons_ok {db : DB} {s : OrderDetailSchema}
    {r : Nat × OrderLine × DB} {rest : List OrderDetailSchema}
    (h : OrderDetailService.save db s = .ok r) :
    runCreates db (s :: rest)
      = ((runCreates r.2.2 rest).1, (runCreates r.2.2 rest).2.1 + 1,
          (runCreates r.2.2 rest).2.2) := by
  simp only [runCreates, h]

theorem runCreates_cons_insufficient {db : DB} {s : OrderDetailSchema}
    {rest : List OrderDetailSchema}
    (h : OrderDetailService.save db s = .error .insufficientStock) :
    runCreates db (s :: rest)
      = ((runCreates db rest).1, (runCreates db rest).2.1,
          (runCreates db rest).2.2 + 1) := by
  simp only [runCreates, h]

theorem runCreates_unit (n : Nat) :
    ∀ (db : DB) (pid oid : Nat) (P : Rat) (S : Int),
    db.products pid = some { price := P, stock := S } →
    db.orders oid = true → 0 ≤ S →
    (runCreates db (List.replicate n (unitReq P oid pid))).2.1 = min n S.toNat ∧
    (runCreates db (List.replicate n (unitReq P oid pid))).2.2 = n - min n S.toNat ∧
    (runCreates db (List.replicate n (unitReq P oid pid))).1.products pid
      = some { price := P, stock := S - (min n S.toNat : Nat) } := by
  induction n with
  | zero =>
      intro db pid oid P S hp ho hS
      refine ⟨by simp [runCreates], by simp [runCreates], ?_⟩
      simp only [List.replicate, runCreates, hp, Nat.zero_min, Nat.cast_zero,
        Int.sub_zero]
  | succ n ih =>
      intro db pid oid P S hp ho hS
      rw [List.replicate_succ]
      by_cases hS1 : S < 1
      · have herr : OrderDetailService.save db (unitReq P oid pid)
            = .error .insufficientStock := by
          refine save_insufficient_intro db _ { price := P, stock := S } ho hp rfl ?_
          show S < (1 : Int)
          exact hS1
        rw [runCreates_cons_insufficient herr]
        obtain ⟨h1, h2, h3⟩ := ih db pid oid P S hp ho hS
        have hT : S.toNat = 0 := by omega
        have hmin : S - ((min n S.toNat : Nat) : Int)
            = S - ((min (n + 1) S.toNat : Nat) : Int) := by omega
        refine ⟨?_, ?_, ?_⟩
        · dsimp only
          rw [h1]
          omega
        · dsimp only
          rw [h2]
          omega
        · dsimp only
          rw [h3, hmin]
      · have hok : OrderDetailService.save db (unitReq P oid pid)
            = .ok (db.nextLineId,
                { quantity := 1, price := P, orderId := oid, productId := pid },
                (db.setStock pid (S - 1)).insertLine db.nextLineId
                  { quantity := 1, price := P, orderId := oid, productId := pid }) := by
          have := save_ok_intro db (unitReq P oid pid) { price := P, stock := S } ho hp rfl
            (by show (1 : Int) ≤ S; omega)
          exact this
        rw [runCreates_cons_ok hok]
        have hp' : ((db.setStock pid (S - 1)).insertLine db.nextLineId
              { quantity := 1, price := P, orderId := oid, productId := pid }).products pid
            = some { price := P, stock := S - 1 } := by
          rw [DB.insertLine_products, DB.setStock_products_self, hp]
          rfl
        have ho' : ((db.setStock pid (S - 1)).insertLine db.nextLineId
              { quantity := 1, price := P, orderId := oid, productId := pid }).orders oid
            = true := ho
        obtain ⟨h1, h2, h3⟩ := ih _ pid oid P (S - 1) hp' ho' (by omega)
        have hT : 1 ≤ S.toNat := by omega
        have hT2 : (S - 1).toNat = S.toNat - 1 := by omega
        have hmin : S - 1 - ((min n (S - 1).toNat : Nat) : Int)
            = S - ((min (n + 1) S.toNat : Nat) : Int) := by omega
        refine ⟨?_, ?_, ?_⟩
        · dsimp only
          rw [h1]
          omega
        · dsimp only
          rw [h2]
          omega
        · dsimp only
          rw [h3, hmin]

/-- Modelled from the spec: the Shared Counter Store, a key-value store of
integer counters; an absent key counts as 0. -/
def CounterStore : Type := String → Nat

/-- Modelled from the spec: the store's atomic increment, returning the
post-increment count. -/
def CounterStore.incr (st : CounterStore) (k : String) : Nat × CounterStore :=
  (st k + 1, fun q => if q = k then st k + 1 else st q)

/-- Modelled from the spec: the fixed-window counter key, built from the
caller identity and the window index floor(now / P) only. -/
def rateLimitKey (identity : String) (now period : Nat) : String :=
  identity ++ ":" ++ toString (now / period)

/-- Outcome of the request gate for one inbound request: pass the request
through (with rate-limit metadata when the store answered), or
short-circuit with 429. -/
inductive GateResult where
  | allowed (remaining : Option Nat)
  | limited (remaining : Nat)
deriving Repr, DecidableEq

def GateResult.isAllowed : GateResult → Bool
  | .allowed _ => true
  | .limited _ => false

def GateResult.remainingOf : GateResult → Option Nat
  | .allowed r => r
  | .limited r => some r

/-- Configuration of RateLimiterMiddleware (middleware/rate_limiter.py, not
under src): call limit, window length in seconds, excluded path set. -/
structure RateLimiter where
  calls : Nat
  period : Nat
  excludedPaths : List String

/-- Modelled from the spec: one pass of the middleware over an inbound
request. Excluded path: bypass with zero store interaction. Otherwise run
the atomic increment batch and read the post-increment count C: allow iff
C ≤ calls, with remaining = calls - C (truncated at 0). The storeFailed
flag embeds an exception raised by any Counter Store interaction: the
middleware then allows the request unconditionally, with no metadata and
the store untouched (fail-open). -/
def RateLimiter.handle (rl : RateLimiter) (storeFailed : Bool)
    (path identity : String) (now : Nat) (st : CounterStore) :
    GateResult × CounterStore :=
  if rl.excludedPaths.any (fun e => path.startsWith e) then (.allowed none, st)
  else if storeFailed then (.allowed none, st)
  else
    let r := st.incr (rateLimitKey identity now rl.period)
    if r.1 ≤ rl.calls then (.allowed (some (rl.calls - r.1)), r.2)
    else (.limited (rl.calls - r.1), r.2)

/-- Serialized handling of a sequence of requests (given by their paths)
from one identity inside one window; the store's single-command semantics
totally order the increments. -/
def runPaths (rl : RateLimiter) (identity : String) (now : Nat)
    (st : CounterStore) : List String → List GateResult × CounterStore
  | [] => ([], st)
  | p :: rest =>
      let r := rl.handle false p identity now st
      let t := runPaths rl identity now r.2 rest
      (r.1 :: t.1, t.2)

/-- Decision made from the post-increment count C against the limit L. -/
def stepResult (L C : Nat) : GateResult :=
  if C ≤ L then .allowed (some (L - C)) else .limited (L - C)

theorem handle_not_excluded (rl : RateLimiter) (path identity : String)
    (now : Nat) (st : CounterStore)
    (h : rl.excludedPaths.any (fun e => path.startsWith e) = false) :
    rl.handle false path identity now st
      = (stepResult rl.calls (st (rateLimitKey identity now rl.period) + 1),
         fun q => if q = rateLimitKey identity now rl.period
                  then st (rateLimitKey identity now rl.period) + 1 else st q) := by
  unfold RateLimiter.handle CounterStore.incr stepResult
  rw [h]
  simp only [Bool.false_eq_true, if_false]
  split <;> rfl

theorem runPaths_cons (rl : RateLimiter) (identity : String) (now : Nat)
    (st : CounterStore) (p : String) (rest : List String) :
    runPaths rl identity now st (p :: rest)
      = ((rl.handle false p identity now st).1
           :: (runPaths rl identity now (rl.handle false p identity now st).2 rest).1,
         (runPaths rl identity now (rl.handle false p identity now st).2 rest).2) := rfl

theorem runPaths_spec (rl : RateLimiter) (identity : String) (now : Nat) :
    ∀ (paths : List String) (st : CounterStore),
    (∀ p ∈ paths, rl.excludedPaths.any (fun e => p.startsWith e) = false) →
    (runPaths rl identity now st paths).1
      = (List.range paths.length).map
          (fun i => stepResult rl.calls
            (st (rateLimitKey identity now rl.period) + i + 1)) ∧
    (runPaths rl identity now st paths).2 (rateLimitKey identity now rl.period)
      = st (rateLimitKey identity now rl.period) + paths.length := by
  intro paths
  induction paths with
  | nil =>
      intro st h
      exact ⟨rfl, rfl⟩
  | cons p rest ih =>
      intro st h
      have hp : rl.excludedPaths.any (fun e => p.startsWith e) = false :=
        h p (List.mem_cons_self p rest)
      have hrest : ∀ q ∈ rest, rl.excludedPaths.any (fun e => q.startsWith e) = false :=
        fun q hq => h q (List.mem_cons_of_mem p hq)
      rw [runPaths_cons, handle_not_excluded rl p identity now st hp]
      dsimp only
      obtain ⟨ih1, ih2⟩ := ih
        (fun q => if q = rateLimitKey identity now rl.period
                  then st (rateLimitKey identity now rl.period) + 1 else st q) hrest
      simp only [eq_self_iff_true, if_true] at ih1 ih2
      constructor
      · rw [ih1, List.length_cons, List.range_succ_eq_map, List.map_cons, List.map_map]
        congr 1
        · refine List.map_congr_left ?_
          intro a ha
          simp only [Function.comp_apply]
          have harith : st (rateLimitKey identity now rl.period) + 1 + a + 1
              = st (rateLimitKey identity now rl.period) + (a + 1) + 1 := by omega
          rw [harith]
      · rw [ih2, List.length_cons]
        omega

/-- Classification used by the controllers in src: the order-detail service
signals PriceMismatch and InsufficientStock as ValueError (messages "Price
mismatch" / "Insufficient stock", src/tests/test_services.py), while
missing entities raise InstanceNotFoundError and duplicate keys raise
IntegrityError, distinct exception types. -/
def SvcError.isValueError : SvcError → Bool
  | .priceMismatch => true
  | .insufficientStock => true
  | .notFound => false
  | .duplicateKey => false

/-- Modelled from the spec: the application-level exception handlers
(main.py, not under src) of the provided HTTP surface: NotFound is answered
404 and a duplicate-key conflict 409; any other exception escaping a
controller is a 500 internal error. -/
def appErrorStatus : SvcError → Nat
  | .notFound => 404
  | .duplicateKey => 409
  | .priceMismatch => 500
  | .insufficientStock => 500

/-- From src/controllers/order_detail_controller.py, OrderDetailController
_create: the route answers 201 on success; a ValueError from the service is
converted to HTTP 400; every other exception propagates to the application
handlers. -/
def orderDetailCreateStatus (r : Except SvcError (Nat × OrderLine × DB)) : Nat :=
  match r with
  | .ok _ => 201
  | .error e => if e.isValueError then 400 else appErrorStatus e

/-- From src/controllers/order_detail_controller.py, OrderDetailController
_update: 200 on success; ValueError converted to 400; everything else
propagates to the application handlers. -/
def orderDetailUpdateStatus (r : Except SvcError (OrderLine × DB)) : Nat :=
  match r with
  | .ok _ => 200
  | .error e => if e.isValueError then 400 else appErrorStatus e

/-- From src/controllers/base_controller_impl.py, BaseControllerImpl
_delete (inherited by the order-detail controller, no exception handling of
its own): 204 on success, errors propagate to the application handlers. -/
def orderDetailDeleteStatus (r : Except SvcError DB) : Nat :=
  match r with
  | .ok _ => 204
  | .error e => appErrorStatus e

/-- An inbound payload for a generic entity: the optional client-supplied
primary key plus its remaining fields, abstracted to one value
(schemas/base_schema.py: id_key is Optional on every schema). -/
structure EntitySchema where
  id_key : Option Nat
  payload : String
deriving Repr, DecidableEq

/-- Backing table of a generic entity: rows by primary key plus the
autoincrement counter (src/models/base_model.py: id_key Integer primary
key, autoincrement). -/
structure EntityStore where
  rows : Nat → Option String
  nextId : Nat

/-- Modelled from the spec: the generic service/repository save path
(services and repositories, not under src, called by the controller):
persist the schema as a row, honouring an explicit primary key when the
schema carries one and otherwise letting the store's autoincrement assign
src/models/base_model.py's id_key; returns the persisted key. -/
def EntityStore.save (st : EntityStore) (s : EntitySchema) : Nat × EntityStore :=
  match s.id_key with
  | some k =>
      (k, { rows := fun q => if q = k then some s.payload else st.rows q,
            nextId := max st.nextId (k + 1) })
  | none =>
      (st.nextId,
        { rows := fun q => if q = st.nextId then some s.payload else st.rows q,
          nextId := st.nextId + 1 })

/-- From src/controllers/base_controller_impl.py, BaseControllerImpl
_create: any client-supplied id_key attribute is removed from the inbound
schema before service.save runs. -/
def BaseControllerImpl.createEntity (st : EntityStore) (s : EntitySchema) :
    Nat × EntityStore :=
  EntityStore.save st { s with id_key := none }

/-- The price 99.99 of the concurrency-test scenario, as the rational
9999/100 (written as a raw fraction so that it reduces in the kernel). -/
def demoPrice : Rat :=
  { num := 9999, den := 100, den_nz := by decide, reduced := by norm_num }

/-- The concurrency-test fixture: product 1 with price 99.99 and stock 10,
an existing order 2, no lines yet. -/
def demoDB : DB :=
  { products := fun k => if k = 1 then some { price := demoPrice, stock := 10 } else none,
    orders := fun k => k == 2,
    lines := fun _ => none,
    nextLineId := 1 }

theorem demoDB_inv : DBInv demoDB := by
  constructor
  · intro pid p hp
    simp only [demoDB] at hp
    by_cases h1 : pid = 1
    · rw [if_pos h1] at hp
      cases hp
      decide
    · rw [if_neg h1] at hp
      exact Option.noConfusion hp
  · intro lid l hl
    simp only [demoDB] at hl
    exact Option.noConfusion hl

/-- C1: the available stock of a product can never become negative: an
order-line create requesting more than the available stock fails with
InsufficientStock and commits nothing, a successful create decrements the
product's stock by exactly the requested quantity, and no sequence of
create/update/delete requests can take any product's stock below zero. -/
theorem claim1_stock_never_negative :
    (∀ (db : DB) (s : OrderDetailSchema) (prod : Product),
      db.orders s.orderId = true →
      db.products s.productId = some prod →
      s.price.getD prod.price = prod.price →
      prod.stock < s.quantity →
      OrderDetailService.save db s = .error .insufficientStock ∧
        applyOp db (.create s) = db) ∧
    (∀ (db : DB) (s : OrderDetailSchema) (r : Nat × OrderLine × DB) (prod : Product),
      OrderDetailService.save db s = .ok r →
      db.products s.productId = some prod →
      r.2.2.products s.productId
        = some { prod with stock := prod.stock - s.quantity }) ∧
    (∀ (db : DB) (ops : List LifecycleOp),
      DBInv db → StockNonneg (runOps db ops)) := by
  refine ⟨?_, ?_, ?_⟩
  · intro db s prod ho hp hprice hlt
    have herr := save_insufficient_intro db s prod ho hp hprice hlt
    refine ⟨herr, ?_⟩
    rw [applyOp_create]
    by_cases hv : s.valid
    · rw [if_pos hv, herr]
    · rw [if_neg hv]
  · intro db s r prod h hp
    exact save_ok_products_self h hp
  · intro db ops h
    exact (dbInv_runOps ops db h).1

/-- Witness for C1 at the test fixture: a create of quantity 999 against
stock 10 fails InsufficientStock and leaves the state untouched, and the
stock invariant holds after a run of requests. -/
theorem claim1_stock_never_negative_witness :
    (OrderDetailService.save demoDB
        { quantity := 999, price := some demoPrice, orderId := 2, productId := 1 }
        = .error .insufficientStock
      ∧ applyOp demoDB
          (.create { quantity := 999, price := some demoPrice, orderId := 2, productId := 1 })
        = demoDB) ∧
    StockNonneg (runOps demoDB
      [.create { quantity := 2, price := some demoPrice, orderId := 2, productId := 1 },
       .deleteLine 1]) :=
  ⟨claim1_stock_never_negative.1 demoDB
      { quantity := 999, price := some demoPrice, orderId := 2, productId := 1 }
      { price := demoPrice, stock := 10 } rfl rfl rfl (by decide),
   claim1_stock_never_negative.2.2 demoDB
      [.create { quantity := 2, price := some demoPrice, orderId := 2, productId := 1 },
       .deleteLine 1] demoDB_inv⟩

/-- C2: with the per-product lock serializing concurrent creates, a batch
of n unit-quantity creates at the correct price against stock S commits
exactly min n S of them, rejects the remaining n - min n S with
InsufficientStock, and leaves final stock S - min n S; in particular stock
10 with 100 concurrent unit creates gives 10 successes, 90
InsufficientStock failures and final stock 0. -/
theorem claim2_concurrent_unit_creates (db : DB) (pid oid : Nat) (P : Rat)
    (S : Int) (n : Nat)
    (hp : db.products pid = some { price := P, stock := S })
    (ho : db.orders oid = true) (hS : 0 ≤ S) :
    (runCreates db (List.replicate n (unitReq P oid pid))).2.1 = min n S.toNat ∧
    (runCreates db (List.replicate n (unitReq P oid pid))).2.2
      = n - min n S.toNat ∧
    (runCreates db (List.replicate n (unitReq P oid pid))).1.products pid
      = some { price := P, stock := S - (min n S.toNat : Nat) } :=
  runCreates_unit n db pid oid P S hp ho hS

/-- Witness for C2: the exact scenario of
src/tests/test_concurrency.py: stock 10, price 99.99, 100 unit
creates: 10 succeed, 90 fail InsufficientStock, final stock 0. -/
theorem claim2_concurrent_unit_creates_witness :
    (runCreates demoDB (List.replicate 100 (unitReq demoPrice 2 1))).2.1 = 10 ∧
    (runCreates demoDB (List.replicate 100 (unitReq demoPrice 2 1))).2.2 = 90 ∧
    (runCreates demoDB (List.replicate 100 (unitReq demoPrice 2 1))).1.products 1
      = some { price := demoPrice, stock := 0 } := by
  have h := claim2_concurrent_unit_creates demoDB 1 2 demoPrice 10 100 rfl rfl
    (by decide)
  refine ⟨?_, ?_, ?_⟩
  · rw [h.1]
    decide
  · rw [h.2.1]
    decide
  · rw [h.2.2]
    norm_num

/-- C3: whenever an order-line create succeeds, deleting the line it
created succeeds, restores every product row (in particular the product's
stock) to its exact pre-create value, and removes the line. -/
theorem claim3_create_delete_roundtrip (db : DB) (s : OrderDetailSchema)
    (lid : Nat) (line : OrderLine) (db1 : DB)
    (h : OrderDetailService.save db s = .ok (lid, line, db1)) :
    ∃ db2, OrderDetailService.delete db1 lid = .ok db2 ∧
      (∀ pid, db2.products pid = db.products pid) ∧
      db2.lines lid = none := by
  obtain ⟨prod, hp, ho, hprice, hstock, hr⟩ := save_ok_elim h
  simp only [Prod.mk.injEq] at hr
  obtain ⟨hlid, hline, hdb1⟩ := hr
  subst hlid
  subst hline
  subst hdb1
  have hl1 : ((db.setStock s.productId (prod.stock - s.quantity)).insertLine db.nextLineId
        { quantity := s.quantity, price := s.price.getD prod.price,
          orderId := s.orderId, productId := s.productId }).lines db.nextLineId
      = some { quantity := s.quantity, price := s.price.getD prod.price,
               orderId := s.orderId, productId := s.productId } := by
    simp [DB.insertLine]
  have hp1 : ((db.setStock s.productId (prod.stock - s.quantity)).insertLine db.nextLineId
        { quantity := s.quantity, price := s.price.getD prod.price,
          orderId := s.orderId, productId := s.productId }).products s.productId
      = some { prod with stock := prod.stock - s.quantity } := by
    rw [DB.insertLine_products, DB.setStock_products_self, hp]
    rfl
  refine ⟨_, delete_ok_intro _ db.nextLineId _ _ hl1 hp1, ?_, ?_⟩
  · intro pid
    rw [DB.removeLine_products]
    by_cases hkp : pid = s.productId
    · subst hkp
      rw [DB.setStock_products_self, DB.insertLine_products,
        DB.setStock_products_self, hp]
      simp only [Option.map_some']
      rw [sub_add_cancel]
    · rw [DB.setStock_products_other _ _ _ _ hkp, DB.insertLine_products,
        DB.setStock_products_other _ _ _ _ hkp]
  · simp [DB.removeLine]

/-- Witness for C3: creating quantity 2 against the fixture then deleting
line 1 restores product 1 to stock 10 and removes the line. -/
theorem claim3_create_delete_roundtrip_witness :
    ∃ db2,
      OrderDetailService.delete
        ((demoDB.setStock 1 (10 - 2)).insertLine 1
          { quantity := 2, price := demoPrice, orderId := 2, productId := 1 }) 1
        = .ok db2 ∧
      (∀ pid, db2.products pid = demoDB.products pid) ∧
      db2.lines 1 = none :=
  claim3_create_delete_roundtrip demoDB
    { quantity := 2, price := some demoPrice, orderId := 2, productId := 1 }
    1 { quantity := 2, price := demoPrice, orderId := 2, productId := 1 }
    ((demoDB.setStock 1 (10 - 2)).insertLine 1
      { quantity := 2, price := demoPrice, orderId := 2, productId := 1 })
    (save_ok_intro demoDB
      { quantity := 2, price := some demoPrice, orderId := 2, productId := 1 }
      { price := demoPrice, stock := 10 } rfl rfl rfl (by decide))

theorem stepResult_isAllowed (L C : Nat) :
    (stepResult L C).isAllowed = true ↔ C ≤ L := by
  unfold stepResult
  by_cases h : C ≤ L
  · rw [if_pos h]
    simpa [GateResult.isAllowed] using h
  · rw [if_neg h]
    simpa [GateResult.isAllowed] using h

theorem stepResult_remainingOf (L C : Nat) :
    (stepResult L C).remainingOf = some (L - C) := by
  unfold stepResult
  by_cases h : C ≤ L
  · rw [if_pos h]
    rfl
  · rw [if_neg h]
    rfl

/-- C4: for a non-excluded request answered by the Counter Store, with C
the post-increment count of the caller's (identity, window) key, the
request is allowed iff C ≤ L, the reported remaining is max(0, L - C),
L = 0 denies every request including the first of a window, and the i-th
of a run of same-window requests starting on a fresh key is decided
against count i+1 (so with L = 3 requests 1-3 pass and request 4 is
denied). -/
theorem claim4_rate_limit_decision (rl : RateLimiter) (path identity : String)
    (now : Nat) (st : CounterStore)
    (hne : rl.excludedPaths.any (fun e => path.startsWith e) = false) :
    (((rl.handle false path identity now st).1).isAllowed = true
      ↔ st (rateLimitKey identity now rl.period) + 1 ≤ rl.calls) ∧
    ((rl.handle false path identity now st).1).remainingOf
      = some ((max 0 ((rl.calls : Int)
          - (st (rateLimitKey identity now rl.period) + 1 : Nat))).toNat) ∧
    (rl.calls = 0 →
      ((rl.handle false path identity now st).1).isAllowed = false) ∧
    (∀ (paths : List String) (i : Nat),
      (∀ p ∈ paths, rl.excludedPaths.any (fun e => p.startsWith e) = false) →
      st (rateLimitKey identity now rl.period) = 0 →
      i < paths.length →
      (runPaths rl identity now st paths).1[i]?
        = some (stepResult rl.calls (i + 1))) := by
  rw [handle_not_excluded rl path identity now st hne]
  dsimp only
  refine ⟨stepResult_isAllowed _ _, ?_, ?_, ?_⟩
  · rw [stepResult_remainingOf]
    congr 1
    omega
  · intro h0
    rw [h0, Bool.eq_false_iff]
    intro hA
    have := (stepResult_isAllowed 0 _).mp hA
    omega
  · intro paths i hall hfresh hi
    obtain ⟨h1, h2⟩ := runPaths_spec rl identity now paths st hall
    rw [h1, List.getElem?_map, List.getElem?_range hi, hfresh]
    simp

/-- Witness for C4: with limit 3 and a window of 60 seconds, requests
whose pre-increment counts are 0, 1, 2 are allowed (the first reporting
remaining 2) and the one with pre-increment count 3 is denied; with limit
0 even the first request of the window is denied. -/
theorem claim4_rate_limit_decision_witness :
    (((RateLimiter.handle { calls := 3, period := 60, excludedPaths := [] }
        false "/test" "10.0.0.1" 0 (fun _ => 0)).1).isAllowed = true) ∧
    (((RateLimiter.handle { calls := 3, period := 60, excludedPaths := [] }
        false "/test" "10.0.0.1" 0 (fun _ => 2)).1).isAllowed = true) ∧
    (((RateLimiter.handle { calls := 3, period := 60, excludedPaths := [] }
        false "/test" "10.0.0.1" 0 (fun _ => 3)).1).isAllowed = false) ∧
    (((RateLimiter.handle { calls := 3, period := 60, excludedPaths := [] }
        false "/test" "10.0.0.1" 0 (fun _ => 0)).1).remainingOf = some 2) ∧
    (((RateLimiter.handle { calls := 0, period := 60, excludedPaths := [] }
        false "/test" "10.0.0.1" 0 (fun _ => 0)).1).isAllowed = false) := by
  refine ⟨?_, ?_, ?_, ?_, ?_⟩
  · exact (claim4_rate_limit_decision
      { calls := 3, period := 60, excludedPaths := [] }
      "/test" "10.0.0.1" 0 (fun _ => 0) rfl).1.mpr (by norm_num)
  · exact (claim4_rate_limit_decision
      { calls := 3, period := 60, excludedPaths := [] }
      "/test" "10.0.0.1" 0 (fun _ => 2) rfl).1.mpr (by norm_num)
  · rw [Bool.eq_false_iff]
    intro hA
    have := (claim4_rate_limit_decision
      { calls := 3, period := 60, excludedPaths := [] }
      "/test" "10.0.0.1" 0 (fun _ => 3) rfl).1.mp hA
    norm_num at this
  · have := (claim4_rate_limit_decision
      { calls := 3, period := 60, excludedPaths := [] }
      "/test" "10.0.0.1" 0 (fun _ => 0) rfl).2.1
    simpa using this
  · exact (claim4_rate_limit_decision
      { calls := 0, period := 60, excludedPaths := [] }
      "/test" "10.0.0.1" 0 (fun _ => 0) rfl).2.2.1 rfl

/-- C5: when any Counter Store interaction fails, the middleware allows the
request unconditionally with no rate-limit metadata and no store mutation —
a counter-store failure can never produce a 429 and is never surfaced. -/
theorem claim5_fail_open (rl : RateLimiter) (path identity : String)
    (now : Nat) (st : CounterStore) :
    rl.handle true path identity now st = (.allowed none, st) := by
  unfold RateLimiter.handle
  split
  · rfl
  · rfl

/-- Fixture for the update scenario of the tests: product 1 with stock 5
and an existing line 7 of quantity 1 on order 2. -/
def demoDB6 : DB :=
  { products := fun k =>
      if k = 1 then some { price := demoPrice, stock := 5 } else none,
    orders := fun k => k == 2,
    lines := fun k =>
      if k = 7 then
        some { quantity := 1, price := demoPrice, orderId := 2, productId := 1 }
      else none,
    nextLineId := 8 }

/-- C6: updating an existing line from quantity q_old to q_new adjusts the
product's stock by exactly -(q_new - q_old); when the adjustment would
exceed the available stock the update fails InsufficientStock and commits
nothing — neither the line nor the stock changes. -/
theorem claim6_update_stock_adjustment (db : DB) (lid : Nat)
    (s : OrderDetailSchema) (line : OrderLine) (prod : Product)
    (hl : db.lines lid = some line)
    (hp : db.products line.productId = some prod)
    (hnn : 0 ≤ prod.stock) :
    (prod.stock < s.quantity - line.quantity →
      OrderDetailService.update db lid s = .error .insufficientStock ∧
        applyOp db (.updateLine lid s) = db) ∧
    (s.quantity - line.quantity ≤ prod.stock →
      OrderDetailService.update db lid s =
        .ok ({ line with quantity := s.quantity, price := s.price.getD line.price },
          (db.setStock line.productId
              (prod.stock + -(s.quantity - line.quantity))).setLine lid
            { line with quantity := s.quantity, price := s.price.getD line.price }) ∧
      ((db.setStock line.productId
            (prod.stock + -(s.quantity - line.quantity))).setLine lid
          { line with quantity := s.quantity, price := s.price.getD line.price }).products
          line.productId
        = some { prod with stock := prod.stock - (s.quantity - line.quantity) }) := by
  constructor
  · intro hlt
    have herr := update_insufficient_intro db lid s line prod hl hp (by omega) hlt
    refine ⟨herr, ?_⟩
    rw [applyOp_updateLine]
    by_cases hv : s.valid
    · rw [if_pos hv, herr]
    · rw [if_neg hv]
  · intro hle
    have hc : ¬(0 < s.quantity - line.quantity ∧
        prod.stock < s.quantity - line.quantity) := by omega
    refine ⟨update_ok_intro db lid s line prod hl hp hc, ?_⟩
    rw [DB.setLine_products, DB.setStock_products_self, hp]
    simp only [Option.map_some']
    have harith : prod.stock + -(s.quantity - line.quantity)
        = prod.stock - (s.quantity - line.quantity) := by ring
    rw [harith]

/-- Witness for C6 at the fixture: updating line 7 (quantity 1, stock 5)
to quantity 999 fails InsufficientStock and changes nothing; updating it to
quantity 3 succeeds and leaves stock 3; updating the resulting line back to
quantity 1 restores stock 5. -/
theorem claim6_update_stock_adjustment_witness :
    (OrderDetailService.update demoDB6 7
        { quantity := 999, price := some demoPrice, orderId := 2, productId := 1 }
        = .error .insufficientStock ∧
      applyOp demoDB6 (.updateLine 7
        { quantity := 999, price := some demoPrice, orderId := 2, productId := 1 })
        = demoDB6) ∧
    ((demoDB6.setStock 1 (5 + -(3 - 1))).setLine 7
        { quantity := 3, price := demoPrice, orderId := 2, productId := 1 }).products 1
      = some { price := demoPrice, stock := 3 } ∧
    ((((demoDB6.setStock 1 (5 + -(3 - 1))).setLine 7
          { quantity := 3, price := demoPrice, orderId := 2, productId := 1 }).setStock 1
        (3 + -(1 - 3))).setLine 7
        { quantity := 1, price := demoPrice, orderId := 2, productId := 1 }).products 1
      = some { price := demoPrice, stock := 5 } := by
  refine ⟨?_, ?_, ?_⟩
  · exact (claim6_update_stock_adjustment demoDB6 7
      { quantity := 999, price := some demoPrice, orderId := 2, productId := 1 }
      { quantity := 1, price := demoPrice, orderId := 2, productId := 1 }
      { price := demoPrice, stock := 5 } rfl rfl (by decide)).1 (by decide)
  · exact ((claim6_update_stock_adjustment demoDB6 7
      { quantity := 3, price := some demoPrice, orderId := 2, productId := 1 }
      { quantity := 1, price := demoPrice, orderId := 2, productId := 1 }
      { price := demoPrice, stock := 5 } rfl rfl (by decide)).2 (by decide)).2
  · exact ((claim6_update_stock_adjustment
      ((demoDB6.setStock 1 (5 + -(3 - 1))).setLine 7
        { quantity := 3, price := demoPrice, orderId := 2, productId := 1 }) 7
      { quantity := 1, price := some demoPrice, orderId := 2, productId := 1 }
      { quantity := 3, price := demoPrice, orderId := 2, productId := 1 }
      { price := demoPrice, stock := 3 } (by decide) (by decide)
      (by decide)).2 (by decide)).2

/-- C7: on order-line create, an omitted price is filled in from the
product's current price; a supplied price that differs from the product's
current price fails PriceMismatch, creating no line and reserving no
stock. -/
theorem claim7_price_handling (db : DB) (s : OrderDetailSchema)
    (prod : Product)
    (ho : db.orders s.orderId = true)
    (hp : db.products s.productId = some prod) :
    (∀ lid line db1, s.price = none →
      OrderDetailService.save db s = .ok (lid, line, db1) →
      line.price = prod.price) ∧
    (∀ P, s.price = some P → P ≠ prod.price →
      OrderDetailService.save db s = .error .priceMismatch ∧
        applyOp db (.create s) = db) := by
  constructor
  · intro lid line db1 hnone h
    obtain ⟨prod2, hp2, ho2, hprice2, hstock2, hr⟩ := save_ok_elim h
    rw [hp] at hp2
    cases hp2
    simp only [Prod.mk.injEq] at hr
    obtain ⟨h1, h2, h3⟩ := hr
    rw [h2]
    show s.price.getD prod.price = prod.price
    rw [hnone]
    rfl
  · intro P hsome hne
    have herr := save_priceMismatch_intro db s prod P ho hp hsome hne
    refine ⟨herr, ?_⟩
    rw [applyOp_create]
    by_cases hv : s.valid
    · rw [if_pos hv, herr]
    · rw [if_neg hv]

/-- Witness for C7 at the fixture: a create with price omitted yields a
line carrying the product's price 99.99; a create at price 100 against
product price 99.99 fails PriceMismatch and leaves the state untouched. -/
theorem claim7_price_handling_witness :
    ({ quantity := 1, price := demoPrice, orderId := 2, productId := 1 }
        : OrderLine).price = demoPrice ∧
    (OrderDetailService.save demoDB
        { quantity := 1, price := some 100, orderId := 2, productId := 1 }
      = .error .priceMismatch ∧
      applyOp demoDB (.create
        { quantity := 1, price := some 100, orderId := 2, productId := 1 })
        = demoDB) := by
  constructor
  · exact (claim7_price_handling demoDB
      { quantity := 1, price := none, orderId := 2, productId := 1 }
      { price := demoPrice, stock := 10 } rfl rfl).1 1
      { quantity := 1, price := demoPrice, orderId := 2, productId := 1 }
      ((demoDB.setStock 1 (10 - 1)).insertLine 1
        { quantity := 1, price := demoPrice, orderId := 2, productId := 1 })
      rfl
      (save_ok_intro demoDB
        { quantity := 1, price := none, orderId := 2, productId := 1 }
        { price := demoPrice, stock := 10 } rfl rfl rfl (by decide))
  · exact (claim7_price_handling demoDB
      { quantity := 1, price := some 100, orderId := 2, productId := 1 }
      { price := demoPrice, stock := 10 } rfl rfl).2 100 rfl (by decide)

/-- C8: a failing mutating order-line request is answered 404 when the
referenced order, product, or line is missing (NotFound), 400 when the
operation fails PriceMismatch or InsufficientStock, and 409 when
persistence reports a duplicate-key conflict. -/
theorem claim8_http_status_mapping :
    (∀ (db : DB) (s : OrderDetailSchema) (e : SvcError),
      OrderDetailService.save db s = .error e →
      orderDetailCreateStatus (OrderDetailService.save db s)
        = (match e with
           | .notFound => 404
           | .priceMismatch => 400
           | .insufficientStock => 400
           | .duplicateKey => 409)) ∧
    (∀ (db : DB) (lid : Nat) (s : OrderDetailSchema) (e : SvcError),
      OrderDetailService.update db lid s = .error e →
      orderDetailUpdateStatus (OrderDetailService.update db lid s)
        = (match e with
           | .notFound => 404
           | .priceMismatch => 400
           | .insufficientStock => 400
           | .duplicateKey => 409)) ∧
    (∀ (db : DB) (lid : Nat) (e : SvcError),
      OrderDetailService.delete db lid = .error e →
      orderDetailDeleteStatus (OrderDetailService.delete db lid)
        = (match e with
           | .notFound => 404
           | .priceMismatch => 400
           | .insufficientStock => 400
           | .duplicateKey => 409)) ∧
    (orderDetailCreateStatus (.error .duplicateKey) = 409 ∧
      orderDetailUpdateStatus (.error .duplicateKey) = 409 ∧
      orderDetailDeleteStatus (.error .duplicateKey) = 409) := by
  refine ⟨?_, ?_, ?_, rfl, rfl, rfl⟩
  · intro db s e h
    rw [h]
    cases e <;> rfl
  · intro db lid s e h
    rw [h]
    cases e <;> rfl
  · intro db lid e h
    have he := delete_error_elim h
    subst he
    rw [h]
    rfl

/-- Witness for C8 at the fixture: a create against a missing order is
404, creates failing the stock or price checks are 400, an update or
delete of a missing line is 404. -/
theorem claim8_http_status_mapping_witness :
    orderDetailCreateStatus (OrderDetailService.save demoDB
      { quantity := 1, price := some demoPrice, orderId := 999, productId := 1 })
      = 404 ∧
    orderDetailCreateStatus (OrderDetailService.save demoDB
      { quantity := 999, price := some demoPrice, orderId := 2, productId := 1 })
      = 400 ∧
    orderDetailCreateStatus (OrderDetailService.save demoDB
      { quantity := 1, price := some 100, orderId := 2, productId := 1 })
      = 400 ∧
    orderDetailUpdateStatus (OrderDetailService.update demoDB 5
      { quantity := 1, price := some demoPrice, orderId := 2, productId := 1 })
      = 404 ∧
    orderDetailDeleteStatus (OrderDetailService.delete demoDB 5) = 404 :=
  ⟨claim8_http_status_mapping.1 demoDB
      { quantity := 1, price := some demoPrice, orderId := 999, productId := 1 }
      .notFound rfl,
   claim8_http_status_mapping.1 demoDB
      { quantity := 999, price := some demoPrice, orderId := 2, productId := 1 }
      .insufficientStock rfl,
   claim8_http_status_mapping.1 demoDB
      { quantity := 1, price := some 100, orderId := 2, productId := 1 }
      .priceMismatch rfl,
   claim8_http_status_mapping.2.1 demoDB 5
      { quantity := 1, price := some demoPrice, orderId := 2, productId := 1 }
      .notFound rfl,
   claim8_http_status_mapping.2.2.1 demoDB 5 .notFound rfl⟩

/-- C9: the rate-limit counter key is built from the caller identity and
the window only, never the request path: two non-excluded requests to
different paths are handled identically, and a same-identity, same-window
run of calls+1 requests spread over arbitrary non-excluded endpoints has
its last request denied. -/
theorem claim9_key_ignores_path (rl : RateLimiter) (identity : String)
    (now : Nat) (st : CounterStore) (p1 p2 : String) (paths : List String)
    (h1 : rl.excludedPaths.any (fun e => p1.startsWith e) = false)
    (h2 : rl.excludedPaths.any (fun e => p2.startsWith e) = false)
    (hall : ∀ p ∈ paths, rl.excludedPaths.any (fun e => p.startsWith e) = false)
    (hfresh : st (rateLimitKey identity now rl.period) = 0)
    (hlen : paths.length = rl.calls + 1) :
    rl.handle false p1 identity now st = rl.handle false p2 identity now st ∧
    (runPaths rl identity now st paths).1[rl.calls]? = some (.limited 0) := by
  constructor
  · rw [handle_not_excluded rl p1 identity now st h1,
      handle_not_excluded rl p2 identity now st h2]
  · obtain ⟨ha, hb⟩ := runPaths_spec rl identity now paths st hall
    rw [ha, List.getElem?_map, List.getElem?_range (by omega), hfresh]
    simp only [Option.map_some', Option.some.injEq]
    unfold stepResult
    rw [if_neg (by omega)]
    congr 1
    omega

/-- Witness for C9: limit 3, fresh window, four requests spread over two
endpoints: the fourth request is denied, and the two endpoints are handled
identically. -/
theorem claim9_key_ignores_path_witness :
    RateLimiter.handle { calls := 3, period := 60, excludedPaths := [] }
        false "/endpoint1" "10.0.0.1" 0 (fun _ => 0)
      = RateLimiter.handle { calls := 3, period := 60, excludedPaths := [] }
        false "/endpoint2" "10.0.0.1" 0 (fun _ => 0) ∧
    (runPaths { calls := 3, period := 60, excludedPaths := [] } "10.0.0.1" 0
        (fun _ => 0)
        ["/endpoint1", "/endpoint1", "/endpoint2", "/endpoint1"]).1[3]?
      = some (.limited 0) :=
  claim9_key_ignores_path { calls := 3, period := 60, excludedPaths := [] }
    "10.0.0.1" 0 (fun _ => 0) "/endpoint1" "/endpoint2"
    ["/endpoint1", "/endpoint1", "/endpoint2", "/endpoint1"]
    rfl rfl (fun _ _ => rfl) rfl rfl

/-- C10: the generic CRUD create removes any client-supplied id_key from
the inbound schema before the service saves it, so the persisted record's
primary key is always the store's autoincrement value and the outcome
never depends on the client-supplied key. -/
theorem claim10_create_ignores_client_id (st : EntityStore) (s : EntitySchema) :
    (BaseControllerImpl.createEntity st s).1 = st.nextId ∧
    (BaseControllerImpl.createEntity st s).2.rows st.nextId = some s.payload ∧
    (BaseControllerImpl.createEntity st s).2.nextId = st.nextId + 1 ∧
    (∀ k, BaseControllerImpl.createEntity st { s with id_key := some k }
        = BaseControllerImpl.createEntity st s) := by
  refine ⟨rfl, ?_, rfl, fun k => rfl⟩
  show (if st.nextId = st.nextId then some s.payload else st.rows st.nextId)
      = some s.payload
  rw [if_pos rfl]
